import Mathlib

/-!
Verification development for `aws_price_list.py`, a read-only client for the
AWS price-list JSON API.  The Python source is embedded shallowly:

* parsed JSON documents become the inductive type `PyVal` (strings, floats,
  dicts as association lists, lists);
* Python floats are modelled by `PyFloat`, a rational number or an infinity
  (NaN never occurs in price-list documents and is outside the model);
* every fallible Python operation (subscription, `float(...)`,
  `datetime.strptime`, the class constructors) returns `Except PyErr`;
* network fetches are modelled by an explicit oracle `fetch : String → PyVal`
  (the composition of HTTP GET and `json.loads`), and wall-clock readings by
  an explicit `now : Nat` argument.
-/

/-- Kinds of Python exceptions raised by the embedded code paths. -/
inductive PyErr where
  | keyError : String → PyErr
  | valueError : String → PyErr
  | typeError : String → PyErr
  | attributeError : String → PyErr
deriving DecidableEq, Repr

/-- Model of a Python float: a finite rational or one of the two infinities.
NaN cannot be produced by the embedded code on price-list data and is not
modelled. -/
inductive PyFloat where
  | fin : ℚ → PyFloat
  | inf : PyFloat
  | ninf : PyFloat
deriving DecidableEq, Repr

/-- Model of a Python value as produced by `json.loads`, plus the floats that
the constructors write back into the parsed documents.  Dicts are association
lists in insertion order (CPython dicts preserve insertion order; JSON parsing
yields unaliased fresh objects, so value semantics is faithful). -/
inductive PyVal where
  | vstr : String → PyVal
  | vnum : PyFloat → PyVal
  | vdict : List (String × PyVal) → PyVal
  | vlist : List PyVal → PyVal

/-- Lookup of a key in an association-list dict. -/
def alGet : List (String × PyVal) → String → Option PyVal
  | [], _ => none
  | (k, v) :: rest, key => if k = key then some v else alGet rest key

/-- Store a key in an association-list dict: replace in place when the key is
present (CPython keeps the original insertion position), append otherwise. -/
def alSet : List (String × PyVal) → String → PyVal → List (String × PyVal)
  | [], key, v => [(key, v)]
  | (k, w) :: rest, key, v =>
      if k = key then (k, v) :: rest else (k, w) :: alSet rest key v

/-- Model of Python subscription `x[key]` with a string key. -/
def pyGet : PyVal → String → Except PyErr PyVal
  | .vdict entries, key =>
      match alGet entries key with
      | some v => .ok v
      | none => .error (.keyError key)
  | .vstr _, _ => .error (.typeError "string indices must be integers")
  | .vlist _, _ => .error (.typeError "list indices must be integers")
  | .vnum _, _ => .error (.typeError "float object is not subscriptable")

/-- Model of Python item assignment `x[key] = v` with a string key. -/
def pySetItem : PyVal → String → PyVal → Except PyErr PyVal
  | .vdict entries, key, v => .ok (.vdict (alSet entries key v))
  | .vstr _, _, _ => .error (.typeError "str object does not support item assignment")
  | .vlist _, _, _ => .error (.typeError "list indices must be integers")
  | .vnum _, _, _ => .error (.typeError "float object does not support item assignment")

/-- Decides whether the character list `pat` occurs at the start of `s`. -/
def startsL : List Char → List Char → Bool
  | [], _ => true
  | _ :: _, [] => false
  | p :: ps, c :: cs => p = c && startsL ps cs

/-- Decides whether the character list `pat` occurs anywhere inside `s`. -/
def hasSub (pat : List Char) : List Char → Bool
  | [] => startsL pat []
  | c :: cs => startsL pat (c :: cs) || hasSub pat cs

/-- Model of the Python membership test `key in x` for a string key: key
presence for dicts, substring test for strings, element equality for lists
(a string compares equal only to an equal string), and a TypeError for
floats. -/
def pyContains : PyVal → String → Except PyErr Bool
  | .vdict entries, key => .ok (alGet entries key).isSome
  | .vstr s, key => .ok (hasSub key.toList s.toList)
  | .vlist items, key =>
      .ok (items.any fun it =>
        match it with
        | .vstr s => s = key
        | _ => false)
  | .vnum _, _ => .error (.typeError "argument of type float is not iterable")

/-- Numeric value of a list of decimal digit characters. -/
def charsToNat (ds : List Char) : Nat :=
  ds.foldl (fun a c => 10 * a + (c.toNat - 48)) 0

/-- Parses an unsigned decimal literal, `digits [. digits]` or `. digits`,
as Python's `float` does (exponents and underscores, which never occur in
price-list documents, are not modelled). -/
def parseUFloat (cs : List Char) : Option ℚ :=
  let ds := cs.takeWhile (·.isDigit)
  let rest := cs.dropWhile (·.isDigit)
  match rest with
  | [] => if ds.isEmpty then none else some (mkRat (charsToNat ds) 1)
  | '.' :: frac =>
      if frac.all (·.isDigit) && (!ds.isEmpty || !frac.isEmpty) then
        some (mkRat (charsToNat ds * 10 ^ frac.length + charsToNat frac)
          (10 ^ frac.length))
      else none
  | _ => none

/-- Drops spaces from both ends of a character list. -/
def stripSpaces (cs : List Char) : List Char :=
  ((cs.dropWhile (· = ' ')).reverse.dropWhile (· = ' ')).reverse

/-- Model of Python `float(s)` on a string: optional surrounding spaces,
optional sign, then a decimal literal or `inf`/`infinity` in any case. -/
def parseFloat (s : String) : Option PyFloat :=
  let cs := stripSpaces s.toList
  let sgn : Bool × List Char :=
    match cs with
    | '-' :: r => (true, r)
    | '+' :: r => (false, r)
    | r => (false, r)
  let lower := sgn.2.map Char.toLower
  if lower = "inf".toList || lower = "infinity".toList then
    some (if sgn.1 then .ninf else .inf)
  else
    match parseUFloat sgn.2 with
    | some q => some (.fin (if sgn.1 then -q else q))
    | none => none

/-- Model of Python `float(x)` on an arbitrary value. -/
def pyFloatOf : PyVal → Except PyErr PyFloat
  | .vnum x => .ok x
  | .vstr s =>
      match parseFloat s with
      | some f => .ok f
      | none => .error (.valueError ("could not convert string to float: " ++ s))
  | .vdict _ => .error (.typeError "float() argument must be a string or a real number")
  | .vlist _ => .error (.typeError "float() argument must be a string or a real number")

/-- Model of Python `x.values()`: the values of a dict in insertion order. -/
def pyValues : PyVal → Except PyErr (List PyVal)
  | .vdict entries => .ok (entries.map Prod.snd)
  | _ => .error (.attributeError "object has no attribute values")

/-- Model of an aware `datetime.datetime`: calendar fields plus the UTC
offset of its `tzinfo` in seconds and microseconds (both carrying the
offset's sign). -/
structure PyDatetime where
  year : Nat
  month : Nat
  day : Nat
  hour : Nat
  minute : Nat
  second : Nat
  offSeconds : Int
  offMicro : Int
deriving DecidableEq, Repr

/-- Gregorian leap-year test, as in Python's `datetime`. -/
def isLeap (y : Nat) : Bool :=
  (y % 4 = 0 && y % 100 ≠ 0) || y % 400 = 0

/-- Number of days in a month, as in Python's `datetime`. -/
def daysInMonth (y m : Nat) : Nat :=
  if m = 2 then (if isLeap y then 29 else 28)
  else if m = 4 || m = 6 || m = 9 || m = 11 then 30
  else 31

/-- Model of the validation done by the `datetime.datetime` and
`datetime.timezone` constructors: calendar-valid fields and a timezone
offset strictly between -24 and +24 hours. -/
def mkDatetime (y mo d h mi s : Nat) (off offUs : Int) : Option PyDatetime :=
  if 1 ≤ y ∧ y ≤ 9999 ∧ 1 ≤ mo ∧ mo ≤ 12 ∧ 1 ≤ d ∧ d ≤ daysInMonth y mo
      ∧ h ≤ 23 ∧ mi ≤ 59 ∧ s ≤ 59
      ∧ (off * 1000000 + offUs).natAbs < 86400000000 then
    some ⟨y, mo, d, h, mi, s, off, offUs⟩
  else none

/-- Numeric value of a decimal digit character, when it is one. -/
def digitVal? (c : Char) : Option Nat :=
  if c.isDigit then some (c.toNat - 48) else none

/-- Parses exactly four digits (the `%Y` directive of CPython's strptime). -/
def parse4 {α : Type} (cs : List Char) (k : Nat → List Char → Option α) : Option α :=
  match cs with
  | a :: b :: c :: d :: rest =>
      match digitVal? a, digitVal? b, digitVal? c, digitVal? d with
      | some x, some y, some z, some w => k (1000 * x + 100 * y + 10 * z + w) rest
      | _, _, _, _ => none
  | _ => none

/-- Parses a numeric field the way CPython's strptime regexes do: first the
two-digit alternatives (accepting exactly the two-digit strings whose value
satisfies `ok2`), then on failure — of the digits or of the whole
continuation `k`, as regex backtracking does — the one-digit alternative
restricted by `ok1`. -/
def parse21 {α : Type} (ok2 : Nat → Bool) (ok1 : Nat → Bool)
    (cs : List Char) (k : Nat → List Char → Option α) : Option α :=
  (match cs with
   | c1 :: c2 :: rest =>
       match digitVal? c1, digitVal? c2 with
       | some d1, some d2 =>
           let v := 10 * d1 + d2
           if ok2 v then k v rest else none
       | _, _ => none
   | _ => none) <|>
  (match cs with
   | c1 :: rest =>
       match digitVal? c1 with
       | some d1 => if ok1 d1 then k d1 rest else none
       | none => none
   | [] => none)

/-- Parses one literal character. -/
def litChar {α : Type} (c : Char) (cs : List Char) (k : List Char → Option α) : Option α :=
  match cs with
  | c' :: rest => if c' = c then k rest else none
  | [] => none

/-- Parses exactly two digits, returning their value. -/
def zNum2 : List Char → Option (Nat × List Char)
  | c1 :: c2 :: rest =>
      match digitVal? c1, digitVal? c2 with
      | some a, some b => some (10 * a + b, rest)
      | _, _ => none
  | _ => none

/-- Consumes one optional colon. -/
def dropColon : List Char → List Char
  | ':' :: r => r
  | r => r

/-- Microsecond value of one-to-six fractional digits, padded to six. -/
def fracVal (ds : List Char) : Nat :=
  charsToNat ds * 10 ^ (6 - ds.length)

/-- Builds the signed offset (seconds, microseconds) of a `%z` match. -/
def mkOff (neg : Bool) (hh mm ss us : Nat) : Option (Int × Int) :=
  let total : Int := (hh * 3600 + mm * 60 + ss : Nat)
  some (if neg then -total else total, if neg then -(us : Int) else (us : Int))

/-- Parses the tail of a `%z` offset after its sign and two hour digits,
anchored at the end of the input: nothing, an optional colon, or
`[:]MM[[:]SS[.1-6 digits]]`. -/
def zAfterHH (neg : Bool) (hh : Nat) (cs : List Char) : Option (Int × Int) :=
  match cs with
  | [] => mkOff neg hh 0 0 0
  | _ =>
      let cs1 := dropColon cs
      match zNum2 cs1 with
      | none => if cs1 = [] then mkOff neg hh 0 0 0 else none
      | some (mm, cs2) =>
          match cs2 with
          | [] => mkOff neg hh mm 0 0
          | _ =>
              let cs3 := dropColon cs2
              match zNum2 cs3 with
              | none => none
              | some (ss, cs4) =>
                  match cs4 with
                  | [] => mkOff neg hh mm ss 0
                  | '.' :: ds =>
                      if 1 ≤ ds.length && ds.length ≤ 6 && ds.all (·.isDigit) then
                        mkOff neg hh mm ss (fracVal ds)
                      else none
                  | _ => none

/-- Model of the `%z` directive anchored at the end of the input: the
literal `Z`, or a sign, two hour digits and `zAfterHH`.  Through
`pyReplaceZ` the only offset text that can reach `%z` is `+0000` (any other
candidate leaves unconsumed input), so the model is exact on all inputs the
embedded code can produce; CPython's colon-consistency quirks for exotic
offsets are not reproduced. -/
def zTail (cs : List Char) : Option (Int × Int) :=
  match cs with
  | ['Z'] => some (0, 0)
  | s :: c1 :: c2 :: rest =>
      if s = '+' || s = '-' then
        match digitVal? c1, digitVal? c2 with
        | some a, some b => zAfterHH (s = '-') (10 * a + b) rest
        | _, _ => none
      else none
  | _ => none

/-- Model of CPython's `datetime.strptime(s, "%Y-%m-%dT%H:%M:%S%z")`:
the field regexes (four-digit year; month, day, hour, minute and second
written with one or two digits, with the two-digit ranges of CPython's
`_strptime` patterns, including the 60 and 61 leap seconds that the regex
admits) with full backtracking, a full match of the input required, followed
by the `datetime` constructor validation `mkDatetime`. -/
def strptimeYmdHMSz (cs : List Char) : Option PyDatetime :=
  parse4 cs fun y cs =>
  litChar '-' cs fun cs =>
  parse21 (fun v => 1 ≤ v && v ≤ 12) (fun v => 1 ≤ v) cs fun mo cs =>
  litChar '-' cs fun cs =>
  parse21 (fun v => 1 ≤ v && v ≤ 31) (fun v => 1 ≤ v) cs fun d cs =>
  litChar 'T' cs fun cs =>
  parse21 (fun v => v ≤ 23) (fun _ => true) cs fun h cs =>
  litChar ':' cs fun cs =>
  parse21 (fun v => v ≤ 59) (fun _ => true) cs fun mi cs =>
  litChar ':' cs fun cs =>
  parse21 (fun v => v ≤ 61) (fun _ => true) cs fun s cs =>
  match zTail cs with
  | some (off, offUs) => mkDatetime y mo d h mi s off offUs
  | none => none

/-- Model of Python `s.replace("Z", "+0000")`: the pattern is a single
character, so the replacement is an independent substitution of every
occurrence. -/
def pyReplaceZ (cs : List Char) : List Char :=
  cs.flatMap fun c => if c = 'Z' then ['+', '0', '0', '0', '0'] else [c]

/-- Model of Python `s.endswith("Z")`. -/
def endsWithZ (cs : List Char) : Bool :=
  match cs.getLast? with
  | some c => c = 'Z'
  | none => false

/-- Embeds the date-parsing snippet the source repeats three times (for the
index publication date, the offer publication date and the term effective
date): `if s.endswith('Z'): strptime(s.replace('Z', '+0000'),
'%Y-%m-%dT%H:%M:%S%z') else: raise ValueError(badMsg)`. -/
def parseZuluCore (badMsg : String) (cs : List Char) : Except PyErr PyDatetime :=
  if endsWithZ cs then
    match strptimeYmdHMSz (pyReplaceZ cs) with
    | some dt => .ok dt
    | none => .error (.valueError "time data does not match format")
  else .error (.valueError (String.mk cs ++ ": " ++ badMsg))

/-- String-level wrapper of `parseZuluCore`. -/
def parseZulu (badMsg : String) (s : String) : Except PyErr PyDatetime :=
  parseZuluCore badMsg s.toList

/-- Splits a URL at its first `://` marker, when present. -/
def splitScheme : List Char → Option (List Char × List Char)
  | [] => none
  | ':' :: '/' :: '/' :: rest => some ([], rest)
  | c :: rest =>
      match splitScheme rest with
      | some (pre, post) => some (c :: pre, post)
      | none => none

/-- Model of `urllib.parse.urljoin` for the URL shapes occurring in
price-list documents: an absolute http(s) URL is kept as is, a
scheme-relative or host-relative path is resolved against the base's scheme
or scheme-plus-host, and any other path replaces the last segment of the
base. -/
def urljoin (base url : String) : String :=
  if url.startsWith "http://" || url.startsWith "https://" then url
  else
    let bcs := base.toList
    if url.startsWith "//" then
      match splitScheme bcs with
      | some (pre, _) => String.mk pre ++ ":" ++ url
      | none => url
    else if url.startsWith "/" then
      match splitScheme bcs with
      | some (pre, post) => String.mk (pre ++ [':', '/', '/'] ++ post.takeWhile (· ≠ '/')) ++ url
      | none => url
    else
      String.mk ((bcs.reverse.dropWhile (· ≠ '/')).reverse) ++ url

/-- Embeds class `AWSOffer`: the stored URL, the parsed offer document
`_offr`, the accessed timestamp, and the publication timestamp `_pubdate`
parsed once at construction. -/
structure AWSOffer where
  url : String
  offr : PyVal
  accessed : Nat
  pubdate : PyDatetime

/-- Embeds `AWSOffer.reload`: re-fetch from the stored URL and replace the
document and the accessed timestamp.  No other field is written. -/
def AWSOffer.reload (fetch : String → PyVal) (now : Nat) (o : AWSOffer) : AWSOffer :=
  { o with offr := fetch o.url, accessed := now }

/-- Embeds the property `AWSOffer.published`: returns the cached
`_pubdate`. -/
def AWSOffer.published (o : AWSOffer) : PyDatetime :=
  o.pubdate

/-- Embeds `AWSOffer.__init__`: store the URL, fetch the document, then parse
`publicationDate` with the strict `Z` rule, failing construction when the
document is not a dict (`.get` missing), the date is absent (`None` has no
`endswith`) or not a string, or the parse fails. -/
def AWSOffer.init (fetch : String → PyVal) (now : Nat) (url : String) :
    Except PyErr AWSOffer :=
  let offr := fetch url
  match offr with
  | .vdict entries =>
      match alGet entries "publicationDate" with
      | some (.vstr pbd) =>
          match parseZulu "Unsupported format for publicationDate" pbd with
          | .ok dt => .ok ⟨url, offr, now, dt⟩
          | .error e => .error e
      | some _ => .error (.attributeError "object has no attribute endswith")
      | none => .error (.attributeError "NoneType object has no attribute endswith")
  | _ => .error (.attributeError "object has no attribute get")

/-- Embeds class `AWSOffersIndex`: the fixed index URL, the parsed index
document `_idx`, and the accessed timestamp. -/
structure AWSOffersIndex where
  idx_url : String
  idx : PyVal
  accessed : Nat

/-- Embeds `AWSOffersIndex.reload`: re-fetch from the stored index URL and
replace the document and the accessed timestamp. -/
def AWSOffersIndex.reload (fetch : String → PyVal) (now : Nat)
    (ix : AWSOffersIndex) : AWSOffersIndex :=
  { ix with idx := fetch ix.idx_url, accessed := now }

/-- Embeds the property `AWSOffersIndex.published`: read `publicationDate`
from the current document and parse it on this access (nothing is cached). -/
def AWSOffersIndex.published (ix : AWSOffersIndex) : Except PyErr PyDatetime :=
  match ix.idx with
  | .vdict entries =>
      match alGet entries "publicationDate" with
      | some (.vstr pbd) => parseZulu "Unsupported format for publicationDate" pbd
      | some _ => .error (.attributeError "object has no attribute endswith")
      | none => .error (.attributeError "NoneType object has no attribute endswith")
  | _ => .error (.attributeError "object has no attribute get")

/-- Embeds `AWSProductPriceTier.__init__` on the raw record `arg`.  The
resulting value is the object's `_info` dict after the constructor's one-time
in-place normalization: requires a dict; if `USD` is present under
`pricePerUnit` (subscription raising `KeyError` when `pricePerUnit` itself is
absent), converts the USD price with `float` and stores it back, otherwise
raises `ValueError('No price in US$')`; then converts `beginRange` and
`endRange` in place the same way.  Python evaluates the right-hand side of
each assignment (subscriptions, then `float`) before the item store, which is
the order used here. -/
def AWSProductPriceTier.init (arg : PyVal) : Except PyErr PyVal :=
  match arg with
  | .vdict _ => do
      let ppu ← pyGet arg "pricePerUnit"
      let hasUSD ← pyContains ppu "USD"
      if hasUSD then do
        let usd ← pyGet ppu "USD"
        let f ← pyFloatOf usd
        let ppu1 ← pySetItem ppu "USD" (.vnum f)
        let info1 ← pySetItem arg "pricePerUnit" ppu1
        let br ← pyGet info1 "beginRange"
        let fb ← pyFloatOf br
        let info2 ← pySetItem info1 "beginRange" (.vnum fb)
        let er ← pyGet info2 "endRange"
        let fe ← pyFloatOf er
        pySetItem info2 "endRange" (.vnum fe)
      else .error (.valueError "No price in US$")
  | _ => .error (.typeError "Product price information not in a dict")

/-- Embeds the property `AWSProductPriceTier.price`:
`self._info['pricePerUnit']['USD']`. -/
def AWSProductPriceTier.price (info : PyVal) : Except PyErr PyVal := do
  let ppu ← pyGet info "pricePerUnit"
  pyGet ppu "USD"

/-- Embeds the property `AWSProductPriceTier.begin_range`:
`self._info['beginRange']`. -/
def AWSProductPriceTier.begin_range (info : PyVal) : Except PyErr PyVal :=
  pyGet info "beginRange"

/-- Embeds the property `AWSProductPriceTier.end_range`:
`self._info['endRange']`. -/
def AWSProductPriceTier.end_range (info : PyVal) : Except PyErr PyVal :=
  pyGet info "endRange"

/-- Embeds the property `AWSProductPriceTier.unit`: `self._info['unit']`. -/
def AWSProductPriceTier.unit (info : PyVal) : Except PyErr PyVal :=
  pyGet info "unit"

/-- Post-construction view of one price tier, carrying exactly the fields the
pricing methods read.  The constructor guarantees `price`, `begin_range` and
`end_range` are floats; `unit` is taken as present, as in every price-list
record.  An infinite end of range (the `"Inf"` of AWS usage tiers) is `none`;
the finite rationals model the float values, which are exact for the decimal
strings of price lists; negative-infinite ranges do not occur in the data and
are outside this view. -/
structure PriceTier where
  unit : String
  price : ℚ
  begin_range : ℚ
  end_range : Option ℚ
deriving DecidableEq, Repr

/-- Embeds `AWSProductPricing.get_price` on the tier-list view: walk the
tiers; a tier whose end of range is exceeded by `amount` contributes
`price * (end_range - begin_range)` and the walk continues; otherwise the
tier contributes `price * (amount - begin_range)` and the walk stops; an
exhausted walk returns the accumulated price, so an empty list yields 0.
`amount > t.end_range` is false when the end of range is infinite. -/
def AWSProductPricing.get_price (tiers : List PriceTier) (amount : ℚ) : ℚ :=
  match tiers with
  | [] => 0
  | t :: rest =>
      match t.end_range with
      | some e =>
          if e < amount then
            t.price * (e - t.begin_range) + AWSProductPricing.get_price rest amount
          else t.price * (amount - t.begin_range)
      | none => t.price * (amount - t.begin_range)

/-- Modelled from the spec: the walk of the tiered cumulative reference
function, carrying the running total.  Each tier with end-of-range strictly
below the amount contributes `price * (end - begin)` to the running total
and the walk continues; the first tier whose end-of-range is at least the
amount (in particular any tier with an infinite end) contributes
`price * (amount - begin)` and the walk stops. -/
def specWalk (amount : ℚ) : List PriceTier → ℚ → ℚ
  | [], total => total
  | t :: rest, total =>
      match t.end_range with
      | some e =>
          if e < amount then
            specWalk amount rest (total + t.price * (e - t.begin_range))
          else total + t.price * (amount - t.begin_range)
      | none => total + t.price * (amount - t.begin_range)

/-- Modelled from the spec: the tiered cumulative reference function, a walk
starting from a zero running total (an empty tier list yields 0). -/
def computePriceSpec (tiers : List PriceTier) (amount : ℚ) : ℚ :=
  specWalk amount tiers 0

/-- Embeds the property `AWSProductPricing.price_unit` on the tier-list
view: collect the set of tier units; return its sole element, and raise
`ValueError` when the set does not have exactly one element (`List.dedup`
models the distinct elements of `set(...)`). -/
def AWSProductPricing.price_unit (tiers : List PriceTier) : Except PyErr String :=
  match (tiers.map PriceTier.unit).dedup with
  | [u] => .ok u
  | _ => .error (.valueError "More than one unit for price tiers")

/-- Comparison of the sort key `lambda t: t.begin_range` on the tier-list
view. -/
def tierLe (a b : PriceTier) : Bool :=
  a.begin_range ≤ b.begin_range

/-- Embeds the tier sort of `AWSProductPricing.__init__` on the tier-list
view: `self._tiers.sort(key=lambda t: t.begin_range)`, a stable ascending
sort by begin of range (`List.mergeSort` is stable, like CPython's sort). -/
def sortTiers (tiers : List PriceTier) : List PriceTier :=
  tiers.mergeSort tierLe

/-- Total order on Python floats used when sorting by a float key. -/
def pfLe : PyFloat → PyFloat → Bool
  | .ninf, _ => true
  | .fin _, .ninf => false
  | .inf, .ninf => false
  | .fin a, .fin b => a ≤ b
  | .fin _, .inf => true
  | .inf, .fin _ => false
  | .inf, .inf => true

/-- Sort key of a raw (normalized) tier record: its `beginRange` float.  The
constructor guarantees the entry is a float; the default covers the
unreachable shapes. -/
def rawBeginKey (v : PyVal) : PyFloat :=
  match v with
  | .vdict entries =>
      match alGet entries "beginRange" with
      | some (.vnum f) => f
      | _ => .inf
  | _ => .inf

/-- Comparison of raw tier records by their `beginRange` key. -/
def rawTierLe (a b : PyVal) : Bool :=
  pfLe (rawBeginKey a) (rawBeginKey b)

/-- Embeds class `AWSProductPricing`: term code, owning product SKU and term
attributes as raw values, the parsed effective-from date, and the list of
normalized tier records sorted by begin of range. -/
structure AWSProductPricing where
  code : PyVal
  product_sku : PyVal
  attributes : PyVal
  effective_from : PyDatetime
  tiers : List PyVal

/-- Embeds `AWSProductPricing.__init__`: requires a dict; reads
`offerTermCode`, `sku`, `termAttributes` (raising `KeyError` when absent);
parses `effectiveDate` with the strict `Z` rule; builds one
`AWSProductPriceTier` per value of `priceDimensions` in iteration order;
then sorts the tiers ascending by their `beginRange` key. -/
def AWSProductPricing.init (term : PyVal) : Except PyErr AWSProductPricing :=
  match term with
  | .vdict _ => do
      let code ← pyGet term "offerTermCode"
      let psku ← pyGet term "sku"
      let attrs ← pyGet term "termAttributes"
      let fd ← pyGet term "effectiveDate"
      let dt ←
        match fd with
        | .vstr s => parseZulu "Unsupported format for effective date" s
        | _ => .error (.attributeError "object has no attribute endswith")
      let dims ← pyGet term "priceDimensions"
      let vals ← pyValues dims
      let tiers ← vals.mapM AWSProductPriceTier.init
      .ok ⟨code, psku, attrs, dt, tiers.mergeSort rawTierLe⟩
  | _ => .error (.typeError "AWS product terms information not in a dict")

/-- Embeds class `AWSProduct`: the raw SKU record, the term type, and one
`AWSProductPricing` per entry of the SKU's terms mapping. -/
structure AWSProduct where
  sku_info : PyVal
  term_type : String
  pricing : List AWSProductPricing

/-- Embeds `AWSProduct.__init__`: requires both records to be dicts (a
`TypeError` otherwise), then builds one `AWSProductPricing` per value of
the terms mapping in iteration order, without re-sorting. -/
def AWSProduct.init (sku_info sku_terms : PyVal) (term_type : String) :
    Except PyErr AWSProduct :=
  match sku_info, sku_terms with
  | .vdict _, .vdict tentries => do
      let pricing ← (tentries.map Prod.snd).mapM AWSProductPricing.init
      .ok ⟨sku_info, term_type, pricing⟩
  | _, _ => .error (.typeError "SKU and its terms information not dicts")

/-- Result of the Python comparison `sku == x` between the requested SKU
string and the embedded value: equal only when the value is an equal
string. -/
def pyEqStr (sku : String) (v : PyVal) : Bool :=
  match v with
  | .vstr s => s = sku
  | _ => false

/-- Embeds `AWSOffer.product`: the sanity check
`sku != self._offr['products'][sku]['sku']` raises
`ValueError('Product SKU mismatch')` before anything else; only then are the
terms looked up (`self._offr['terms'][term_type][sku]`) and the `AWSProduct`
constructed from the two records. -/
def AWSOffer.product (o : AWSOffer) (sku : String) (term_type : String) :
    Except PyErr AWSProduct := do
  let prods ← pyGet o.offr "products"
  let prec ← pyGet prods sku
  let emb ← pyGet prec "sku"
  if pyEqStr sku emb then do
    let terms ← pyGet o.offr "terms"
    let tts ← pyGet terms term_type
    let trec ← pyGet tts sku
    AWSProduct.init prec trec term_type
  else .error (.valueError "Product SKU mismatch")

/-- Embeds `AWSOffersIndex.offer`: evaluate
`self._idx['offers'][offer_code]['currentVersionUrl']` under
`try/except KeyError`, turning any `KeyError` into
`ValueError('<code>: Unknown offer code')` while letting other errors
propagate; then resolve the path against the index URL and construct an
`AWSOffer` from the result (the only place a fetch happens). -/
def AWSOffersIndex.offer (fetch : String → PyVal) (now : Nat)
    (ix : AWSOffersIndex) (offer_code : String) : Except PyErr AWSOffer :=
  let tryPath : Except PyErr PyVal := do
    let offs ← pyGet ix.idx "offers"
    let meta ← pyGet offs offer_code
    pyGet meta "currentVersionUrl"
  match tryPath with
  | .error (.keyError _) => .error (.valueError (offer_code ++ ": Unknown offer code"))
  | .error e => .error e
  | .ok (.vstr urlpath) => AWSOffer.init fetch now (urljoin ix.idx_url urlpath)
  | .ok _ => .error (.typeError "expected str instance")

/-- Fixed, well-known URL of the AWS offer index. -/
def awsIndexUrl : String :=
  "https://pricing.us-east-1.amazonaws.com/offers/v1.0/aws/index.json"

/-- Embeds `AWSOffersIndex.__init__`: store the fixed index URL and perform
the initial `reload`. -/
def AWSOffersIndex.init (fetch : String → PyVal) (now : Nat) : AWSOffersIndex :=
  ⟨awsIndexUrl, fetch awsIndexUrl, now⟩

/-- Two-digit zero-padded decimal rendering of `n ≤ 99`. -/
def render2 (n : Nat) : List Char :=
  [Char.ofNat (48 + n / 10), Char.ofNat (48 + n % 10)]

/-- Four-digit zero-padded decimal rendering of `n ≤ 9999`. -/
def render4 (n : Nat) : List Char :=
  [Char.ofNat (48 + n / 1000), Char.ofNat (48 + n / 100 % 10),
   Char.ofNat (48 + n / 10 % 10), Char.ofNat (48 + n % 10)]

/-- Renders a field value with (`pad = true`) or without zero padding. -/
def renderPadded (pad : Bool) (n : Nat) : List Char :=
  if pad then render2 n else [Char.ofNat (48 + n)]

/-- Renders the date-time core `YYYY-M-DTH:M:S`, each lower field zero-padded
according to its flag. -/
def renderCore (pm pd2 ph pmi ps : Bool) (y mo d h mi s : Nat) : List Char :=
  render4 y ++ '-' :: (renderPadded pm mo ++ '-' :: (renderPadded pd2 d ++
    'T' :: (renderPadded ph h ++ ':' :: (renderPadded pmi mi ++
    ':' :: (renderPadded ps s)))))

/-- Renders a full publication-date candidate ending in the literal `Z`. -/
def renderZulu (pm pd2 ph pmi ps : Bool) (y mo d h mi s : Nat) : List Char :=
  renderCore pm pd2 ph pmi ps y mo d h mi s ++ ['Z']

/-- Modelled from the spec: the literal shape `YYYY-MM-DDTHH:MM:SSZ` — four
digits, a dash, two digits, a dash, two digits, `T`, two digits, a colon,
two digits, a colon, two digits, `Z`, and nothing else. -/
def strictZuluShape (cs : List Char) : Bool :=
  match cs with
  | [y1, y2, y3, y4, '-', m1, m2, '-', d1, d2, 'T',
     h1, h2, ':', n1, n2, ':', s1, s2, 'Z'] =>
      y1.isDigit && y2.isDigit && y3.isDigit && y4.isDigit &&
      m1.isDigit && m2.isDigit && d1.isDigit && d2.isDigit &&
      h1.isDigit && h2.isDigit && n1.isDigit && n2.isDigit &&
      s1.isDigit && s2.isDigit
  | _ => false

/-- Tier list of the spec's worked example:
`[(begin=0, end=10, price=2), (begin=10, end=inf, price=1)]`. -/
def exampleTiers : List PriceTier :=
  [⟨"GB", 2, 0, some 10⟩, ⟨"GB", 1, 10, none⟩]

/-- Network oracle serving an offer document published in March 2024. -/
def fetch2024 : String → PyVal :=
  fun _ => .vdict [("publicationDate", .vstr "2024-03-01T00:00:00Z")]

/-- Network oracle serving an offer document published in June 2025. -/
def fetch2025 : String → PyVal :=
  fun _ => .vdict [("publicationDate", .vstr "2025-06-02T12:30:45Z")]

/-- Publication instant of the 2024 document. -/
def dt2024 : PyDatetime := ⟨2024, 3, 1, 0, 0, 0, 0, 0⟩

/-- Publication instant of the 2025 document. -/
def dt2025 : PyDatetime := ⟨2025, 6, 2, 12, 30, 45, 0, 0⟩

/-- The offer object obtained by constructing against `fetch2024`. -/
def offer2024 : AWSOffer :=
  ⟨"https://x.example/offer.json",
   .vdict [("publicationDate", .vstr "2024-03-01T00:00:00Z")], 0, dt2024⟩

/-- Raw price-dimension record of the worked term example. -/
def tierRawA : PyVal :=
  .vdict [("rateCode", .vstr "R1"), ("description", .vstr "per GB"),
          ("unit", .vstr "GB"), ("appliesTo", .vlist []),
          ("pricePerUnit", .vdict [("USD", .vstr "0.05")]),
          ("beginRange", .vstr "0"), ("endRange", .vstr "Inf")]

/-- The record `tierRawA` after the constructor's in-place normalization. -/
def tierNormA : PyVal :=
  .vdict [("rateCode", .vstr "R1"), ("description", .vstr "per GB"),
          ("unit", .vstr "GB"), ("appliesTo", .vlist []),
          ("pricePerUnit", .vdict [("USD", .vnum (.fin (mkRat 5 100)))]),
          ("beginRange", .vnum (.fin (mkRat 0 1))), ("endRange", .vnum .inf)]

/-- Raw term record of the worked term example. -/
def termExA : PyVal :=
  .vdict [("offerTermCode", .vstr "JRTCKXETXF"), ("sku", .vstr "SKU1"),
          ("termAttributes", .vdict []),
          ("effectiveDate", .vstr "2024-03-01T00:00:00Z"),
          ("priceDimensions", .vdict [("SKU1.JRTCKXETXF.6YS6EN2CT7", tierRawA)])]

/-- The pricing object constructed from `termExA`. -/
def pricingExA : AWSProductPricing :=
  ⟨.vstr "JRTCKXETXF", .vstr "SKU1", .vdict [], ⟨2024, 3, 1, 0, 0, 0, 0, 0⟩,
   [tierNormA]⟩

theorem alGet_alSet_self (l : List (String × PyVal)) (k : String) (v : PyVal) :
    alGet (alSet l k v) k = some v := by
  induction l with
  | nil => simp [alSet, alGet]
  | cons a rest ih =>
      by_cases ha : a.1 = k
      · simp [alSet, alGet, ha]
      · simp [alSet, alGet, ha, ih]

theorem alGet_alSet_ne (l : List (String × PyVal)) {k k' : String} (v : PyVal)
    (h : k' ≠ k) : alGet (alSet l k v) k' = alGet l k' := by
  have hne : ∀ {a : String}, a = k → ¬a = k' := by
    intro a ha hk
    apply h
    rw [← hk, ha]
  induction l with
  | nil => simp [alSet, alGet, hne rfl]
  | cons a rest ih =>
      by_cases ha : a.1 = k
      · simp [alSet, alGet, ha, hne ha, hne rfl]
      · simp [alSet, alGet, ha, ih]

theorem dedup_eq_singleton_iff {l : List String} {u : String} :
    l.dedup = [u] ↔ l ≠ [] ∧ ∀ x ∈ l, x = u := by
  constructor
  · intro h
    refine ⟨fun hnil => ?_, fun x hx => ?_⟩
    · rw [hnil] at h
      simp at h
    · have hm : x ∈ l.dedup := List.mem_dedup.mpr hx
      rw [h] at hm
      simpa using hm
  · rintro ⟨hne, hall⟩
    have hsub : ∀ x ∈ l.dedup, x = u := fun x hx => hall x (List.mem_dedup.mp hx)
    have hmem : u ∈ l.dedup := by
      obtain ⟨a, ha⟩ := List.exists_mem_of_ne_nil l hne
      have := hall a ha
      subst this
      exact List.mem_dedup.mpr ha
    have key : ∀ m : List String, m.Nodup → m ≠ [] → (∀ x ∈ m, x = u) → m = [u] := by
      intro m hm hne2 hall2
      cases m with
      | nil => exact absurd rfl hne2
      | cons a rest =>
          have ha : a = u := hall2 a (List.mem_cons_self a rest)
          cases rest with
          | nil => rw [ha]
          | cons b rest2 =>
              have hb : b = u := hall2 b
                (List.mem_cons_of_mem a (List.mem_cons_self b rest2))
              rcases List.nodup_cons.mp hm with ⟨hnotm, _⟩
              exact absurd
                (show a ∈ b :: rest2 by
                  rw [ha, hb]; exact List.mem_cons_self u rest2) hnotm
    refine key l.dedup (List.nodup_dedup l) (fun h0 => ?_) hsub
    exact hne ((List.dedup_eq_nil l).mp h0)

theorem specWalk_eq_get_price (amount : ℚ) :
    ∀ (ts : List PriceTier) (total : ℚ),
      specWalk amount ts total = total + AWSProductPricing.get_price ts amount
  | [], total => by simp [specWalk, AWSProductPricing.get_price]
  | t :: rest, total => by
      cases he : t.end_range with
      | none => simp [specWalk, AWSProductPricing.get_price, he]
      | some e =>
          by_cases hlt : e < amount
          · simp only [specWalk, AWSProductPricing.get_price, he, if_pos hlt,
              specWalk_eq_get_price amount rest]
            ring
          · simp [specWalk, AWSProductPricing.get_price, he, hlt]

theorem ok_bind {α β : Type} (a : α) (f : α → Except PyErr β) :
    (Except.ok a >>= f) = f a := rfl

theorem error_bind {α β : Type} (e : PyErr) (f : α → Except PyErr β) :
    ((Except.error e : Except PyErr α) >>= f) = .error e := rfl

/-- C7: for every pricing term with a non-empty tier list, `price_unit`
returns the single common unit string when all tiers share one unit, and
fails with the consistency `ValueError` whenever two tiers carry different
unit strings. -/
theorem C7_price_unit_consistency :
    (∀ (tiers : List PriceTier) (u : String), tiers ≠ [] →
        (∀ t ∈ tiers, t.unit = u) →
        AWSProductPricing.price_unit tiers = .ok u)
    ∧ (∀ (tiers : List PriceTier) (t1 t2 : PriceTier), t1 ∈ tiers → t2 ∈ tiers →
        t1.unit ≠ t2.unit →
        AWSProductPricing.price_unit tiers =
          .error (.valueError "More than one unit for price tiers")) := by
  constructor
  · intro tiers u hne hall
    have hd : (tiers.map PriceTier.unit).dedup = [u] := by
      rw [dedup_eq_singleton_iff]
      refine ⟨by simpa using hne, ?_⟩
      intro x hx
      obtain ⟨t, ht, rfl⟩ := List.mem_map.mp hx
      exact hall t ht
    simp [AWSProductPricing.price_unit, hd]
  · intro tiers t1 t2 h1 h2 hne12
    have hns : ∀ u, (tiers.map PriceTier.unit).dedup ≠ [u] := by
      intro u hu
      rcases dedup_eq_singleton_iff.mp hu with ⟨-, hall⟩
      have e1 := hall t1.unit (List.mem_map_of_mem PriceTier.unit h1)
      have e2 := hall t2.unit (List.mem_map_of_mem PriceTier.unit h2)
      exact hne12 (e1.trans e2.symm)
    rcases hdd : (tiers.map PriceTier.unit).dedup with - | ⟨a, - | ⟨b, rest2⟩⟩
    · simp [AWSProductPricing.price_unit, hdd]
    · exact absurd hdd (hns a)
    · simp [AWSProductPricing.price_unit, hdd]

theorem C7_witness :
    AWSProductPricing.price_unit [⟨"GB-Mo", 2, 0, some 10⟩, ⟨"GB-Mo", 1, 10, none⟩]
        = .ok "GB-Mo"
    ∧ AWSProductPricing.price_unit [⟨"GB-Mo", 2, 0, some 10⟩, ⟨"Requests", 1, 10, none⟩]
        = .error (.valueError "More than one unit for price tiers") := by
  constructor
  · exact C7_price_unit_consistency.1 _ "GB-Mo" (by decide) (by decide)
  · exact C7_price_unit_consistency.2 _
      ⟨"GB-Mo", 2, 0, some 10⟩ ⟨"Requests", 1, 10, none⟩
      (by decide) (by decide) (by decide)

/-- C10: `price_unit` on an empty tier list raises the consistency
`ValueError` (the unit set has zero elements, not one), and in general it
succeeds exactly when the tier list is non-empty and all tiers share a
single unit. -/
theorem C10_price_unit_success_iff :
    AWSProductPricing.price_unit [] =
        .error (.valueError "More than one unit for price tiers")
    ∧ ∀ tiers : List PriceTier,
        (∃ u, AWSProductPricing.price_unit tiers = .ok u) ↔
          (tiers ≠ [] ∧ ∀ t1 ∈ tiers, ∀ t2 ∈ tiers, t1.unit = t2.unit) := by
  constructor
  · rfl
  · intro tiers
    constructor
    · rintro ⟨u, hu⟩
      have hd : (tiers.map PriceTier.unit).dedup = [u] := by
        rcases hdd : (tiers.map PriceTier.unit).dedup with - | ⟨a, - | ⟨b, rest2⟩⟩
        · simp [AWSProductPricing.price_unit, hdd] at hu
        · simp only [AWSProductPricing.price_unit, hdd] at hu
          cases hu
          rfl
        · simp [AWSProductPricing.price_unit, hdd] at hu
      rcases dedup_eq_singleton_iff.mp hd with ⟨hne, hall⟩
      refine ⟨fun h0 => ?_, fun t1 ht1 t2 ht2 => ?_⟩
      · rw [h0] at hne
        simp at hne
      · have e1 := hall t1.unit (List.mem_map_of_mem PriceTier.unit ht1)
        have e2 := hall t2.unit (List.mem_map_of_mem PriceTier.unit ht2)
        rw [e1, e2]
    · rintro ⟨hne, hall⟩
      obtain ⟨t0, ht0⟩ := List.exists_mem_of_ne_nil tiers hne
      refine ⟨t0.unit, ?_⟩
      have hd : (tiers.map PriceTier.unit).dedup = [t0.unit] := by
        rw [dedup_eq_singleton_iff]
        refine ⟨by simpa using hne, ?_⟩
        intro x hx
        obtain ⟨t, ht, rfl⟩ := List.mem_map.mp hx
        exact hall t ht t0 ht0
      simp [AWSProductPricing.price_unit, hd]

theorem C10_witness :
    ∃ u, AWSProductPricing.price_unit [⟨"GB", 1, 0, none⟩] = .ok u :=
  (C10_price_unit_success_iff.2 [⟨"GB", 1, 0, none⟩]).mpr ⟨by decide, by decide⟩

/-- C8: constructing a price tier from a dict whose `pricePerUnit` mapping
has no `USD` key always fails with the `ValueError('No price in US$')`,
whatever the other fields hold: the USD check precedes every range
conversion. -/
theorem C8_no_usd_price :
    ∀ (entries pp : List (String × PyVal)),
      alGet entries "pricePerUnit" = some (.vdict pp) →
      alGet pp "USD" = none →
      AWSProductPriceTier.init (.vdict entries) =
        .error (.valueError "No price in US$") := by
  intro entries pp h1 h2
  simp [AWSProductPriceTier.init, pyGet, pyContains, h1, h2, ok_bind]

theorem C8_witness :
    AWSProductPriceTier.init
        (.vdict [("pricePerUnit", .vdict [("CNY", .vstr "1.0")]),
                 ("beginRange", .vlist []), ("endRange", .vstr "oops")]) =
      .error (.valueError "No price in US$") :=
  C8_no_usd_price _ [("CNY", .vstr "1.0")] rfl rfl

/-- C9: constructing a price tier from a dict record with a USD entry
converts the USD price, `beginRange` and `endRange` decimal strings to
floats eagerly at construction time, writing the converted values back into
the raw record itself and leaving every other field unchanged; the `price`,
`begin_range` and `end_range` properties then return the numeric values. -/
theorem C9_eager_normalization :
    ∀ (entries pp res : List (String × PyVal)) (su sb se : String)
      (f fb fe : PyFloat),
      alGet entries "pricePerUnit" = some (.vdict pp) →
      alGet pp "USD" = some (.vstr su) → parseFloat su = some f →
      alGet entries "beginRange" = some (.vstr sb) → parseFloat sb = some fb →
      alGet entries "endRange" = some (.vstr se) → parseFloat se = some fe →
      res = alSet (alSet (alSet entries "pricePerUnit"
              (.vdict (alSet pp "USD" (.vnum f)))) "beginRange" (.vnum fb))
              "endRange" (.vnum fe) →
      AWSProductPriceTier.init (.vdict entries) = .ok (.vdict res)
      ∧ (∀ k : String, k ≠ "pricePerUnit" → k ≠ "beginRange" → k ≠ "endRange" →
          alGet res k = alGet entries k)
      ∧ AWSProductPriceTier.price (.vdict res) = .ok (.vnum f)
      ∧ AWSProductPriceTier.begin_range (.vdict res) = .ok (.vnum fb)
      ∧ AWSProductPriceTier.end_range (.vdict res) = .ok (.vnum fe) := by
  intro entries pp res su sb se f fb fe h1 h2 h3 h4 h5 h6 h7 hres
  subst hres
  have g1 : alGet (alSet entries "pricePerUnit"
      (.vdict (alSet pp "USD" (.vnum f)))) "beginRange" = some (.vstr sb) := by
    rw [alGet_alSet_ne _ _ (by decide)]
    exact h4
  have g2 : alGet (alSet (alSet entries "pricePerUnit"
      (.vdict (alSet pp "USD" (.vnum f)))) "beginRange" (.vnum fb)) "endRange" =
      some (.vstr se) := by
    rw [alGet_alSet_ne _ _ (by decide), alGet_alSet_ne _ _ (by decide)]
    exact h6
  have p1 : alGet (alSet (alSet (alSet entries "pricePerUnit"
      (.vdict (alSet pp "USD" (.vnum f)))) "beginRange" (.vnum fb))
      "endRange" (.vnum fe)) "pricePerUnit" =
      some (.vdict (alSet pp "USD" (.vnum f))) := by
    rw [alGet_alSet_ne _ _ (by decide), alGet_alSet_ne _ _ (by decide),
      alGet_alSet_self]
  have p2 : alGet (alSet (alSet (alSet entries "pricePerUnit"
      (.vdict (alSet pp "USD" (.vnum f)))) "beginRange" (.vnum fb))
      "endRange" (.vnum fe)) "beginRange" = some (.vnum fb) := by
    rw [alGet_alSet_ne _ _ (by decide), alGet_alSet_self]
  have p3 : alGet (alSet (alSet (alSet entries "pricePerUnit"
      (.vdict (alSet pp "USD" (.vnum f)))) "beginRange" (.vnum fb))
      "endRange" (.vnum fe)) "endRange" = some (.vnum fe) := by
    rw [alGet_alSet_self]
  refine ⟨?_, ?_, ?_, ?_, ?_⟩
  · simp [AWSProductPriceTier.init, pyGet, pyContains, pyFloatOf, pySetItem,
      h1, h2, h3, g1, h5, g2, h7, ok_bind]
  · intro k hk1 hk2 hk3
    rw [alGet_alSet_ne _ _ hk3, alGet_alSet_ne _ _ hk2, alGet_alSet_ne _ _ hk1]
  · simp [AWSProductPriceTier.price, pyGet, p1, alGet_alSet_self, ok_bind]
  · simp [AWSProductPriceTier.begin_range, pyGet, p2]
  · simp [AWSProductPriceTier.end_range, pyGet, p3]

theorem C9_witness :
    AWSProductPriceTier.init
        (.vdict [("rateCode", .vstr "R1"),
                 ("pricePerUnit", .vdict [("USD", .vstr "2")]),
                 ("unit", .vstr "GB"),
                 ("beginRange", .vstr "0"), ("endRange", .vstr "10")]) =
      .ok (.vdict [("rateCode", .vstr "R1"),
                   ("pricePerUnit", .vdict [("USD", .vnum (.fin 2))]),
                   ("unit", .vstr "GB"),
                   ("beginRange", .vnum (.fin 0)), ("endRange", .vnum (.fin 10))]) :=
  (C9_eager_normalization
    [("rateCode", .vstr "R1"), ("pricePerUnit", .vdict [("USD", .vstr "2")]),
     ("unit", .vstr "GB"), ("beginRange", .vstr "0"), ("endRange", .vstr "10")]
    [("USD", .vstr "2")]
    [("rateCode", .vstr "R1"),
     ("pricePerUnit", .vdict [("USD", .vnum (.fin 2))]),
     ("unit", .vstr "GB"),
     ("beginRange", .vnum (.fin 0)), ("endRange", .vnum (.fin 10))]
    "2" "0" "10" (.fin 2) (.fin 0) (.fin 10)
    rfl rfl (by decide) rfl (by decide) rfl (by decide) rfl).1

/-- C5: `product(sku, term_type)` on an offer document whose located product
record carries an embedded `sku` different from the requested one fails with
the `ValueError('Product SKU mismatch')`; the check precedes the terms
lookup and the `AWSProduct` construction (the hypotheses constrain nothing
about the terms mapping), so no product object is built. -/
theorem C5_sku_mismatch :
    ∀ (o : AWSOffer) (sku tt : String) (prods prec emb : PyVal),
      pyGet o.offr "products" = .ok prods →
      pyGet prods sku = .ok prec →
      pyGet prec "sku" = .ok emb →
      pyEqStr sku emb = false →
      AWSOffer.product o sku tt = .error (.valueError "Product SKU mismatch") := by
  intro o sku tt prods prec emb h1 h2 h3 h4
  simp [AWSOffer.product, h1, h2, h3, h4, ok_bind]

theorem C5_witness :
    AWSOffer.product
      ⟨"https://x.example/offer.json",
       .vdict [("products", .vdict [("AAA", .vdict [("sku", .vstr "BBB")])]),
               ("terms", .vdict [])], 0, dt2024⟩
      "AAA" "OnDemand" = .error (.valueError "Product SKU mismatch") :=
  C5_sku_mismatch _ "AAA" "OnDemand"
    (.vdict [("AAA", .vdict [("sku", .vstr "BBB")])])
    (.vdict [("sku", .vstr "BBB")]) (.vstr "BBB") rfl rfl rfl rfl

/-- C6: resolving an offer code absent from the loaded index's offers
mapping fails with the `ValueError('<code>: Unknown offer code')`; the
result does not depend on the network oracle (no fetch is performed), and
the operation takes the index state and returns only the result, so the
in-memory index is unchanged; for a present code the offer is constructed
from the current-version URL resolved against the index's own endpoint. -/
theorem C6_offer_resolution :
    ∀ (ix : AWSOffersIndex) (code : String) (ie oe : List (String × PyVal)),
      ix.idx = .vdict ie →
      alGet ie "offers" = some (.vdict oe) →
      ((alGet oe code = none →
          ∀ (fetch fetch' : String → PyVal) (now now' : Nat),
            AWSOffersIndex.offer fetch now ix code =
              .error (.valueError (code ++ ": Unknown offer code"))
            ∧ AWSOffersIndex.offer fetch now ix code =
                AWSOffersIndex.offer fetch' now' ix code)
       ∧ ∀ (me : List (String × PyVal)) (p : String) (fetch : String → PyVal)
           (now : Nat),
           alGet oe code = some (.vdict me) →
           alGet me "currentVersionUrl" = some (.vstr p) →
           AWSOffersIndex.offer fetch now ix code =
             AWSOffer.init fetch now (urljoin ix.idx_url p)) := by
  intro ix code ie oe hidx hoffs
  constructor
  · intro habs fetch fetch' now now'
    have h : ∀ (g : String → PyVal) (t : Nat),
        AWSOffersIndex.offer g t ix code =
          .error (.valueError (code ++ ": Unknown offer code")) := by
      intro g t
      simp [AWSOffersIndex.offer, hidx, pyGet, hoffs, habs, ok_bind, error_bind]
    exact ⟨h fetch now, (h fetch now).trans (h fetch' now').symm⟩
  · intro me p fetch now hme hurl
    simp [AWSOffersIndex.offer, hidx, pyGet, hoffs, hme, hurl, ok_bind]

theorem C6_witness :
    AWSOffersIndex.offer fetch2024 0
      ⟨awsIndexUrl,
       .vdict [("offers", .vdict [("AmazonS3", .vdict [("currentVersionUrl",
         .vstr "/offers/v1.0/aws/AmazonS3/current/index.json")])])], 0⟩
      "Nope" = .error (.valueError "Nope: Unknown offer code")
    ∧ AWSOffersIndex.offer fetch2024 5
        ⟨awsIndexUrl,
         .vdict [("offers", .vdict [("AmazonS3", .vdict [("currentVersionUrl",
           .vstr "/offers/v1.0/aws/AmazonS3/current/index.json")])])], 0⟩
        "AmazonS3" =
      AWSOffer.init fetch2024 5
        (urljoin awsIndexUrl "/offers/v1.0/aws/AmazonS3/current/index.json") :=
  ⟨((C6_offer_resolution
      ⟨awsIndexUrl,
       .vdict [("offers", .vdict [("AmazonS3", .vdict [("currentVersionUrl",
         .vstr "/offers/v1.0/aws/AmazonS3/current/index.json")])])], 0⟩
      "Nope"
      [("offers", .vdict [("AmazonS3", .vdict [("currentVersionUrl",
        .vstr "/offers/v1.0/aws/AmazonS3/current/index.json")])])]
      [("AmazonS3", .vdict [("currentVersionUrl",
        .vstr "/offers/v1.0/aws/AmazonS3/current/index.json")])]
      rfl rfl).1 rfl fetch2024 fetch2025 0 1).1,
   (C6_offer_resolution
      ⟨awsIndexUrl,
       .vdict [("offers", .vdict [("AmazonS3", .vdict [("currentVersionUrl",
         .vstr "/offers/v1.0/aws/AmazonS3/current/index.json")])])], 0⟩
      "AmazonS3"
      [("offers", .vdict [("AmazonS3", .vdict [("currentVersionUrl",
        .vstr "/offers/v1.0/aws/AmazonS3/current/index.json")])])]
      [("AmazonS3", .vdict [("currentVersionUrl",
        .vstr "/offers/v1.0/aws/AmazonS3/current/index.json")])]
      rfl rfl).2
      [("currentVersionUrl", .vstr "/offers/v1.0/aws/AmazonS3/current/index.json")]
      "/offers/v1.0/aws/AmazonS3/current/index.json" fetch2024 5 rfl rfl⟩

/-- C2 counterexample: an offer constructed against a 2024 document and then
reloaded against a network now serving a 2025 document keeps its URL,
replaces its in-memory document — yet `published` still reports the 2024
instant, not the `publicationDate` of the newly fetched document, refuting
the claim that reload replaces the publication timestamp. -/
theorem C2_counterexample :
    AWSOffer.init fetch2024 0 "https://x.example/offer.json" = .ok offer2024
    ∧ (offer2024.reload fetch2025 1).url = "https://x.example/offer.json"
    ∧ (offer2024.reload fetch2025 1).offr =
        .vdict [("publicationDate", .vstr "2025-06-02T12:30:45Z")]
    ∧ (offer2024.reload fetch2025 1).published = dt2024
    ∧ parseZulu "Unsupported format for publicationDate" "2025-06-02T12:30:45Z"
        = .ok dt2025
    ∧ dt2024 ≠ dt2025 :=
  ⟨rfl, rfl, rfl, rfl, rfl, by decide⟩

/-- C2 as amended: `reload` re-fetches from the same stored URL, replaces
the in-memory document and the accessed timestamp, and leaves the stored URL
unchanged — but the publication timestamp reported by `published` is not
replaced: it remains the value parsed at construction time. -/
theorem C2_reload_frame :
    ∀ (fetch : String → PyVal) (now : Nat) (o : AWSOffer),
      (o.reload fetch now).url = o.url
      ∧ (o.reload fetch now).offr = fetch o.url
      ∧ (o.reload fetch now).accessed = now
      ∧ (o.reload fetch now).published = o.published :=
  fun _ _ _ => ⟨rfl, rfl, rfl, rfl⟩

theorem bind_ok_inv {α β : Type} {e : Except PyErr α} {f : α → Except PyErr β}
    {b : β} (h : (e >>= f) = .ok b) : ∃ a, e = .ok a ∧ f a = .ok b := by
  cases e with
  | ok a => exact ⟨a, rfl, h⟩
  | error er =>
      rw [error_bind] at h
      exact absurd h (by simp)

theorem pfLe_trans : ∀ a b c : PyFloat,
    pfLe a b = true → pfLe b c = true → pfLe a c = true := by
  intro a b c h1 h2
  cases a <;> cases b <;> cases c <;> simp_all [pfLe, decide_eq_true_eq]
  exact le_trans h1 h2

theorem pfLe_total : ∀ a b : PyFloat, (pfLe a b || pfLe b a) = true := by
  intro a b
  cases a <;> cases b <;> simp [pfLe, decide_eq_true_eq]
  exact le_total _ _

theorem rawTierLe_trans : ∀ a b c : PyVal,
    rawTierLe a b = true → rawTierLe b c = true → rawTierLe a c = true :=
  fun a b c h1 h2 => pfLe_trans (rawBeginKey a) (rawBeginKey b) (rawBeginKey c) h1 h2

theorem rawTierLe_total : ∀ a b : PyVal, (rawTierLe a b || rawTierLe b a) = true :=
  fun a b => pfLe_total (rawBeginKey a) (rawBeginKey b)

theorem tierLe_trans : ∀ a b c : PriceTier,
    tierLe a b = true → tierLe b c = true → tierLe a c = true := by
  intro a b c h1 h2
  simp only [tierLe, decide_eq_true_eq] at h1 h2 ⊢
  exact le_trans h1 h2

theorem tierLe_total : ∀ a b : PriceTier, (tierLe a b || tierLe b a) = true := by
  intro a b
  simp only [tierLe, Bool.or_eq_true, decide_eq_true_eq]
  exact le_total _ _

/-- C3: the tier list built by the pricing-term constructor is sorted
ascending by begin-of-range whatever the iteration order of the
price-dimensions mapping supplied to it, and the sort is idempotent: an
already-sorted tier list is returned in the same order. -/
theorem C3_tiers_sorted :
    (∀ (term : PyVal) (p : AWSProductPricing),
        AWSProductPricing.init term = .ok p →
        List.Pairwise (fun a b => rawTierLe a b = true) p.tiers)
    ∧ (∀ ts : List PriceTier,
        List.Pairwise (fun a b => a.begin_range ≤ b.begin_range) (sortTiers ts))
    ∧ (∀ ts : List PriceTier,
        List.Pairwise (fun a b => a.begin_range ≤ b.begin_range) ts →
          sortTiers ts = ts) := by
  refine ⟨?_, ?_, ?_⟩
  · intro term p h
    cases term with
    | vdict entries =>
        simp only [AWSProductPricing.init] at h
        obtain ⟨code, hc, h⟩ := bind_ok_inv h
        obtain ⟨psku, hs, h⟩ := bind_ok_inv h
        obtain ⟨attrs, ha, h⟩ := bind_ok_inv h
        obtain ⟨fd, hf, h⟩ := bind_ok_inv h
        cases fd with
        | vstr s =>
            obtain ⟨dt, hdt, h⟩ := bind_ok_inv h
            obtain ⟨dims, hdm, h⟩ := bind_ok_inv h
            obtain ⟨vals, hv, h⟩ := bind_ok_inv h
            obtain ⟨tiers, ht, h⟩ := bind_ok_inv h
            cases h
            exact List.sorted_mergeSort rawTierLe_trans rawTierLe_total tiers
        | vnum x =>
            rw [error_bind] at h
            simp at h
        | vdict l =>
            rw [error_bind] at h
            simp at h
        | vlist l =>
            rw [error_bind] at h
            simp at h
    | vstr s => simp [AWSProductPricing.init] at h
    | vnum x => simp [AWSProductPricing.init] at h
    | vlist l => simp [AWSProductPricing.init] at h
  · intro ts
    have h := List.sorted_mergeSort tierLe_trans tierLe_total ts
    simp only [sortTiers]
    exact h.imp fun hab => by simpa [tierLe, decide_eq_true_eq] using hab
  · intro ts hts
    simp only [sortTiers]
    apply List.mergeSort_of_sorted
    exact hts.imp fun hab => by simp [tierLe, decide_eq_true_eq, hab]

unseal List.mergeSort List.merge in
theorem C3_witness :
    List.Pairwise (fun a b : PyVal => rawTierLe a b = true) pricingExA.tiers
    ∧ sortTiers [⟨"GB", 2, 0, some 10⟩, ⟨"GB", 1, 10, none⟩] =
        [⟨"GB", 2, 0, some 10⟩, ⟨"GB", 1, 10, none⟩] :=
  ⟨C3_tiers_sorted.1 termExA pricingExA (by rfl),
   C3_tiers_sorted.2.2 [⟨"GB", 2, 0, some 10⟩, ⟨"GB", 1, 10, none⟩]
     (by norm_num [List.pairwise_cons])⟩

/-- C1: on every tier list sorted ascending by begin-of-range and every
amount, `get_price` equals the spec's tiered cumulative reference walk; on
the spec's worked example `[(0,10,2), (10,inf,1)]` it yields 10, 20 and 25
at amounts 5, 10 and 15; an empty tier list yields 0; and an amount below
the first tier's begin-of-range (with positive price and a well-ordered
first tier) yields a negative result. -/
theorem C1_get_price_cumulative :
    (∀ (tiers : List PriceTier) (amount : ℚ),
        List.Pairwise (fun a b => a.begin_range ≤ b.begin_range) tiers →
        AWSProductPricing.get_price tiers amount = computePriceSpec tiers amount)
    ∧ AWSProductPricing.get_price exampleTiers 5 = 10
    ∧ AWSProductPricing.get_price exampleTiers 10 = 20
    ∧ AWSProductPricing.get_price exampleTiers 15 = 25
    ∧ (∀ amount : ℚ, AWSProductPricing.get_price [] amount = 0)
    ∧ (∀ (t : PriceTier) (rest : List PriceTier) (amount : ℚ),
        amount < t.begin_range → 0 < t.price →
        (∀ e, t.end_range = some e → t.begin_range ≤ e) →
        AWSProductPricing.get_price (t :: rest) amount < 0) := by
  refine ⟨?_, ?_, ?_, ?_, ?_, ?_⟩
  · intro tiers amount _
    rw [computePriceSpec, specWalk_eq_get_price]
    ring
  · norm_num [AWSProductPricing.get_price, exampleTiers]
  · norm_num [AWSProductPricing.get_price, exampleTiers]
  · norm_num [AWSProductPricing.get_price, exampleTiers]
  · intro amount
    rfl
  · intro t rest amount hlt hp hend
    cases he : t.end_range with
    | none =>
        simp only [AWSProductPricing.get_price, he]
        exact mul_neg_of_pos_of_neg hp (by linarith)
    | some e =>
        have hbe := hend e he
        have hna : ¬ e < amount := by linarith
        simp only [AWSProductPricing.get_price, he, if_neg hna]
        exact mul_neg_of_pos_of_neg hp (by linarith)

theorem C1_witness :
    AWSProductPricing.get_price exampleTiers 7 = computePriceSpec exampleTiers 7
    ∧ AWSProductPricing.get_price [⟨"GB", 2, 5, some 10⟩] 3 < 0 :=
  ⟨C1_get_price_cumulative.1 exampleTiers 7
     (by norm_num [exampleTiers, List.pairwise_cons]),
   C1_get_price_cumulative.2.2.2.2.2 ⟨"GB", 2, 5, some 10⟩ [] 3
     (by norm_num) (by norm_num)
     (by
       intro e he
       cases he
       norm_num)⟩

theorem digitVal_ofNat (x : Nat) (hx : x ≤ 9) :
    digitVal? (Char.ofNat (48 + x)) = some x := by
  interval_cases x <;> decide

theorem ofNat_digit_ne_Z (x : Nat) (hx : x ≤ 9) : Char.ofNat (48 + x) ≠ 'Z' := by
  interval_cases x <;> decide

theorem pyReplaceZ_append (a b : List Char) :
    pyReplaceZ (a ++ b) = pyReplaceZ a ++ pyReplaceZ b := by
  simp [pyReplaceZ]

theorem pyReplaceZ_noZ : ∀ cs : List Char, (∀ c ∈ cs, c ≠ 'Z') → pyReplaceZ cs = cs := by
  intro cs
  induction cs with
  | nil => intro _; rfl
  | cons c rest ih =>
      intro h
      have hc := h c (List.mem_cons_self c rest)
      simp only [pyReplaceZ, List.flatMap_cons] at *
      rw [if_neg hc, ih (fun x hx => h x (List.mem_cons_of_mem c hx))]
      rfl

theorem daysInMonth_le (y m : Nat) : daysInMonth y m ≤ 31 := by
  unfold daysInMonth
  split
  · split <;> omega
  · split <;> omega

theorem noZ_renderPadded (pad : Bool) (n : Nat) (hn : n ≤ 99)
    (hp : pad = false → n ≤ 9) : ∀ c ∈ renderPadded pad n, c ≠ 'Z' := by
  cases pad
  · intro c hc
    simp [renderPadded] at hc
    subst hc
    exact ofNat_digit_ne_Z _ (hp rfl)
  · intro c hc
    simp [renderPadded, render2] at hc
    rcases hc with h | h <;> subst h
    · exact ofNat_digit_ne_Z _ (by omega)
    · exact ofNat_digit_ne_Z _ (by omega)

theorem noZ_render4 (y : Nat) (hy : y ≤ 9999) : ∀ c ∈ render4 y, c ≠ 'Z' := by
  intro c hc
  simp [render4] at hc
  rcases hc with h | h | h | h <;> subst h <;> exact ofNat_digit_ne_Z _ (by omega)

theorem noZ_renderCore (pm pd2 ph pmi ps : Bool) (y mo d h mi s : Nat)
    (hy : y ≤ 9999) (hmo : mo ≤ 12) (hpm : pm = false → mo ≤ 9)
    (hdm : d ≤ 31) (hpd : pd2 = false → d ≤ 9)
    (hh : h ≤ 23) (hph : ph = false → h ≤ 9)
    (hmi : mi ≤ 59) (hpmi : pmi = false → mi ≤ 9)
    (hs : s ≤ 61) (hps : ps = false → s ≤ 9) :
    ∀ c ∈ renderCore pm pd2 ph pmi ps y mo d h mi s, c ≠ 'Z' := by
  intro c hc
  simp only [renderCore, List.mem_append, List.mem_cons] at hc
  rcases hc with h1 | h1 | h1 | h1 | h1 | h1 | h1 | h1 | h1 | h1 | h1
  · exact noZ_render4 y hy c h1
  · subst h1; decide
  · exact noZ_renderPadded pm mo (by omega) hpm c h1
  · subst h1; decide
  · exact noZ_renderPadded pd2 d (by omega) hpd c h1
  · subst h1; decide
  · exact noZ_renderPadded ph h (by omega) hph c h1
  · subst h1; decide
  · exact noZ_renderPadded pmi mi (by omega) hpmi c h1
  · subst h1; decide
  · exact noZ_renderPadded ps s (by omega) hps c h1

theorem parse4_render4_of {α : Type} {y : Nat} {rest : List Char}
    {k : Nat → List Char → Option α} {r : α} (hy : y ≤ 9999)
    (hk : k y rest = some r) : parse4 (render4 y ++ rest) k = some r := by
  have h1 : y / 1000 ≤ 9 := by omega
  have h2 : y / 100 % 10 ≤ 9 := by omega
  have h3 : y / 10 % 10 ≤ 9 := by omega
  have h4 : y % 10 ≤ 9 := by omega
  have hval : 1000 * (y / 1000) + 100 * (y / 100 % 10) + 10 * (y / 10 % 10) + y % 10
      = y := by omega
  simp only [render4, List.cons_append, List.nil_append, parse4,
    digitVal_ofNat _ h1, digitVal_ofNat _ h2, digitVal_ofNat _ h3,
    digitVal_ofNat _ h4, hval, hk]

theorem litChar_cons_of {α : Type} {c : Char} {l : List Char}
    {k : List Char → Option α} {r : α} (hk : k l = some r) :
    litChar c (c :: l) k = some r := by
  simp [litChar, hk]

theorem parse21_padded_of {α : Type} {ok2 ok1 : Nat → Bool} {pad : Bool} {n : Nat}
    {hd : Char} {tl : List Char} {k : Nat → List Char → Option α} {r : α}
    (hn : n ≤ 99) (h2 : ok2 n = true)
    (h1 : pad = false → n ≤ 9 ∧ ok1 n = true)
    (hhd : digitVal? hd = none)
    (hk : k n (hd :: tl) = some r) :
    parse21 ok2 ok1 (renderPadded pad n ++ hd :: tl) k = some r := by
  cases pad with
  | true =>
      have ha : n / 10 ≤ 9 := by omega
      have hb : n % 10 ≤ 9 := by omega
      have hv : 10 * (n / 10) + n % 10 = n := by omega
      simp only [renderPadded, if_pos, render2, List.cons_append, List.nil_append,
        parse21, digitVal_ofNat _ ha, digitVal_ofNat _ hb, hv, h2, if_true, hk,
        Option.some_orElse]
  | false =>
      obtain ⟨h9, hok1⟩ := h1 rfl
      simp only [renderPadded, Bool.false_eq_true, if_false, List.cons_append,
        List.nil_append, parse21, digitVal_ofNat _ h9, hhd, hok1, if_true, hk,
        Option.none_orElse]

theorem strptime_render (pm pd2 ph pmi ps : Bool) (y mo d h mi s : Nat)
    (hy1 : 1 ≤ y) (hy : y ≤ 9999)
    (hmo1 : 1 ≤ mo) (hmo : mo ≤ 12) (hpm : pm = false → mo ≤ 9)
    (hd1 : 1 ≤ d) (hdm : d ≤ daysInMonth y mo) (hpd : pd2 = false → d ≤ 9)
    (hh : h ≤ 23) (hph : ph = false → h ≤ 9)
    (hmi : mi ≤ 59) (hpmi : pmi = false → mi ≤ 9)
    (hs : s ≤ 59) (hps : ps = false → s ≤ 9) :
    strptimeYmdHMSz (renderCore pm pd2 ph pmi ps y mo d h mi s ++
        ['+', '0', '0', '0', '0']) = some ⟨y, mo, d, h, mi, s, 0, 0⟩ := by
  have hd31 : d ≤ 31 := le_trans hdm (daysInMonth_le y mo)
  have hcond : 1 ≤ y ∧ y ≤ 9999 ∧ 1 ≤ mo ∧ mo ≤ 12 ∧ 1 ≤ d ∧ d ≤ daysInMonth y mo
      ∧ h ≤ 23 ∧ mi ≤ 59 ∧ s ≤ 59
      ∧ ((0 : Int) * 1000000 + 0).natAbs < 86400000000 :=
    ⟨hy1, hy, hmo1, hmo, hd1, hdm, hh, hmi, hs, by decide⟩
  unfold strptimeYmdHMSz
  simp only [renderCore, List.append_assoc, List.cons_append]
  apply parse4_render4_of hy
  apply litChar_cons_of
  apply parse21_padded_of (by omega)
    (by simp only [Bool.and_eq_true, decide_eq_true_eq]; omega)
    (fun hf => ⟨hpm hf, by simp only [decide_eq_true_eq]; omega⟩) (by decide)
  apply litChar_cons_of
  apply parse21_padded_of (by omega)
    (by simp only [Bool.and_eq_true, decide_eq_true_eq]; omega)
    (fun hf => ⟨hpd hf, by simp only [decide_eq_true_eq]; omega⟩) (by decide)
  apply litChar_cons_of
  apply parse21_padded_of (by omega)
    (by simp only [decide_eq_true_eq]; omega)
    (fun hf => ⟨hph hf, rfl⟩) (by decide)
  apply litChar_cons_of
  apply parse21_padded_of (by omega)
    (by simp only [decide_eq_true_eq]; omega)
    (fun hf => ⟨hpmi hf, rfl⟩) (by decide)
  apply litChar_cons_of
  apply parse21_padded_of (by omega)
    (by simp only [decide_eq_true_eq]; omega)
    (fun hf => ⟨hps hf, rfl⟩) (by decide)
  show (match zTail ['+', '0', '0', '0', '0'] with
    | some (off, offUs) => mkDatetime y mo d h mi s off offUs
    | none => none) = some ⟨y, mo, d, h, mi, s, 0, 0⟩
  have hz : zTail ['+', '0', '0', '0', '0'] = some (0, 0) := rfl
  rw [hz]
  simp [mkDatetime, hcond]

theorem parseZuluCore_render (msg : String) (pm pd2 ph pmi ps : Bool)
    (y mo d h mi s : Nat)
    (hy1 : 1 ≤ y) (hy : y ≤ 9999)
    (hmo1 : 1 ≤ mo) (hmo : mo ≤ 12) (hpm : pm = false → mo ≤ 9)
    (hd1 : 1 ≤ d) (hdm : d ≤ daysInMonth y mo) (hpd : pd2 = false → d ≤ 9)
    (hh : h ≤ 23) (hph : ph = false → h ≤ 9)
    (hmi : mi ≤ 59) (hpmi : pmi = false → mi ≤ 9)
    (hs : s ≤ 59) (hps : ps = false → s ≤ 9) :
    parseZuluCore msg (renderZulu pm pd2 ph pmi ps y mo d h mi s) =
      .ok ⟨y, mo, d, h, mi, s, 0, 0⟩ := by
  have hend : endsWithZ (renderZulu pm pd2 ph pmi ps y mo d h mi s) = true := by
    simp [renderZulu, endsWithZ, List.getLast?_concat]
  have hrep : pyReplaceZ (renderZulu pm pd2 ph pmi ps y mo d h mi s) =
      renderCore pm pd2 ph pmi ps y mo d h mi s ++ ['+', '0', '0', '0', '0'] := by
    rw [renderZulu, pyReplaceZ_append,
      pyReplaceZ_noZ _ (noZ_renderCore pm pd2 ph pmi ps y mo d h mi s hy hmo hpm
        (le_trans hdm (daysInMonth_le y mo)) hpd hh hph hmi hpmi (by omega) hps)]
    rfl
  simp [parseZuluCore, hend, hrep,
    strptime_render pm pd2 ph pmi ps y mo d h mi s hy1 hy hmo1 hmo hpm hd1 hdm
      hpd hh hph hmi hpmi hs hps]

/-- C4 as amended: the index publication timestamp is parsed from the
current document on each access (a reload makes the next access parse the
fresh document); parsing accepts a date-time ending in the literal `Z` with
a four-digit year and calendar-valid month, day, hour, minute and second
each written with one or two digits — zero padding is not required, which is
the correction — returning the corresponding UTC instant; every string not
ending in `Z` (in particular one carrying an explicit numeric offset) is
rejected with a `ValueError`, as is the fractional-seconds variant. -/
theorem C4_publication_date_parsing :
    (∀ (url : String) (entries : List (String × PyVal)) (pbd : String) (t : Nat),
        alGet entries "publicationDate" = some (.vstr pbd) →
        AWSOffersIndex.published ⟨url, .vdict entries, t⟩ =
          parseZulu "Unsupported format for publicationDate" pbd)
    ∧ (∀ (fetch : String → PyVal) (now : Nat) (ix : AWSOffersIndex),
        (ix.reload fetch now).published =
          AWSOffersIndex.published ⟨ix.idx_url, fetch ix.idx_url, now⟩)
    ∧ (∀ (pm pd2 ph pmi ps : Bool) (y mo d h mi s : Nat),
        1 ≤ y → y ≤ 9999 →
        1 ≤ mo → mo ≤ 12 → (pm = false → mo ≤ 9) →
        1 ≤ d → d ≤ daysInMonth y mo → (pd2 = false → d ≤ 9) →
        h ≤ 23 → (ph = false → h ≤ 9) →
        mi ≤ 59 → (pmi = false → mi ≤ 9) →
        s ≤ 59 → (ps = false → s ≤ 9) →
        parseZuluCore "Unsupported format for publicationDate"
            (renderZulu pm pd2 ph pmi ps y mo d h mi s) =
          .ok ⟨y, mo, d, h, mi, s, 0, 0⟩)
    ∧ (∀ (msg : String) (cs : List Char), endsWithZ cs = false →
        parseZuluCore msg cs =
          .error (.valueError (String.mk cs ++ ": " ++ msg)))
    ∧ parseZulu "Unsupported format for publicationDate"
        "2024-01-01T00:00:00.123456Z" =
        .error (.valueError "time data does not match format")
    ∧ parseZulu "Unsupported format for publicationDate"
        "2024-01-01T00:00:00+05:00" =
        .error (.valueError
          "2024-01-01T00:00:00+05:00: Unsupported format for publicationDate") := by
  refine ⟨?_, ?_, ?_, ?_, ?_, ?_⟩
  · intro url entries pbd t hpb
    simp [AWSOffersIndex.published, hpb]
  · intro fetch now ix
    rfl
  · intro pm pd2 ph pmi ps y mo d h mi s hy1 hy hmo1 hmo hpm hd1 hdm hpd hh hph
      hmi hpmi hs hps
    exact parseZuluCore_render _ pm pd2 ph pmi ps y mo d h mi s hy1 hy hmo1 hmo
      hpm hd1 hdm hpd hh hph hmi hpmi hs hps
  · intro msg cs hz
    simp [parseZuluCore, hz]
  · rfl
  · rfl

theorem C4_witness :
    parseZuluCore "Unsupported format for publicationDate"
        (renderZulu true true true true true 2024 3 1 0 0 0) =
      .ok ⟨2024, 3, 1, 0, 0, 0, 0, 0⟩
    ∧ parseZuluCore "Unsupported format for publicationDate" ['a'] =
        .error (.valueError
          (String.mk ['a'] ++ ": " ++ "Unsupported format for publicationDate")) :=
  ⟨C4_publication_date_parsing.2.2.1 true true true true true 2024 3 1 0 0 0
     (by omega) (by omega) (by omega) (by omega) (by simp) (by omega) (by decide)
     (by simp) (by omega) (by simp) (by omega) (by simp) (by omega) (by simp),
   C4_publication_date_parsing.2.2.2.1 "Unsupported format for publicationDate"
     ['a'] rfl⟩

/-- C4 counterexample: the publication date "2024-1-01T00:00:00Z" is not of
the spec's strict `YYYY-MM-DDTHH:MM:SSZ` shape (its month has one digit),
yet the access succeeds — strptime's field patterns also admit unpadded
fields — refuting the claim that parsing succeeds exactly on the strict
shape. -/
theorem C4_counterexample :
    strictZuluShape "2024-1-01T00:00:00Z".toList = false
    ∧ AWSOffersIndex.published
        ⟨awsIndexUrl, .vdict [("publicationDate", .vstr "2024-1-01T00:00:00Z")], 0⟩
        = .ok ⟨2024, 1, 1, 0, 0, 0, 0, 0⟩ :=
  ⟨rfl, rfl⟩
